import Mathlib

/-!
Verification development for the CS 3502 concurrent bank-account program
(`src/main.rs`).  The Rust source is shallowly embedded as pure Lean
functions:

* `BankAccount` mirrors the Rust struct (`account_name`, `account_id`,
  `account_balance`); the `f64` balance is modelled as `Int`, which is exact
  for every value the program manipulates.
* `fetch_add` models `NEXT_ID.fetch_add(1, Ordering::Relaxed)`: it returns
  the old counter value and the incremented counter.  `allocRun` chains `m`
  consecutive allocations (atomicity of `fetch_add` means any concurrent
  interleaving of allocations is one such chain).
* `BankAccount.deposit` / `BankAccount.withdraw` mirror lines 35-44 of
  `main.rs`; `withdraw` additionally returns whether the insufficient-funds
  message was printed.
* `BankAccount.transfer` mirrors lines 48-76.  Storage addresses of the two
  `Arc<Mutex<_>>` handles are modelled as `Nat` parameters; the booleans
  `firstFree` / `secondFree` say whether the corresponding `try_lock`
  succeeds (the lock is not held elsewhere at that moment).  The result is a
  `TransferExec`: how many "potential deadlock" warnings were printed, and
  `none` when the code panics (the source calls `.unwrap()` on a failed
  `try_lock` result), otherwise the reported outcome together with the final
  sender and receiver records.
* `BankAccount.transferSeq` is `transfer` in an otherwise idle process: the
  first `try_lock` succeeds, and the second succeeds exactly when the two
  handles are distinct storage (a self-transfer re-locks the same `Mutex`,
  whose `try_lock` then fails).
* `AccountOp` / `applyOps` model a sequence of single-account operations
  executed one at a time under the account's lock; `stressOps n` is the
  stress scenario (`n` repetitions of `deposit(100); withdraw(50)`).
* `lockOrder`, `TPhase`, `stepPhase`, `sysStep`, `sysRun` model the
  two-thread lock-acquisition protocol of `transfer`: both threads acquire
  the canonically-first (address-lower) lock and then the second, each
  acquisition being an atomic `try_lock` that either succeeds or immediately
  terminates the call (panic); a schedule is a list of booleans choosing
  which thread performs its next atomic step.
-/

structure BankAccount where
  account_name : String
  account_id : Nat
  account_balance : Int
deriving DecidableEq

/-- Model of `NEXT_ID.fetch_add(1, Ordering::Relaxed)` (line 18): returns
the previous counter value and the incremented counter. -/
def fetch_add (c : Nat) : Nat × Nat := (c, c + 1)

/-- Chain of `m` consecutive id allocations starting from counter value `c`:
the list of ids handed out and the final counter value. -/
def allocRun : Nat → Nat → List Nat × Nat
  | c, 0 => ([], c)
  | c, m + 1 =>
    let r := fetch_add c
    let rest := allocRun r.2 m
    (r.1 :: rest.1, rest.2)

/-- Model of `BankAccount::new` (lines 17-24), with the identity counter
passed explicitly: returns the constructed record and the new counter. -/
def BankAccount.new (name : String) (init_bal : Int) (c : Nat) :
    BankAccount × Nat :=
  (⟨name, (fetch_add c).1, init_bal⟩, (fetch_add c).2)

/-- Model of `account_bal` (lines 32-34). -/
def BankAccount.account_bal (acc : BankAccount) : Int :=
  acc.account_balance

/-- Model of `deposit` (lines 35-37): `self.account_balance += amnt`,
unconditionally. -/
def BankAccount.deposit (acc : BankAccount) (amnt : Int) : BankAccount :=
  ⟨acc.account_name, acc.account_id, acc.account_balance + amnt⟩

/-- Model of `withdraw` (lines 38-44).  The boolean records whether the
insufficient-funds message was printed (the else branch was taken). -/
def BankAccount.withdraw (acc : BankAccount) (amnt : Int) :
    BankAccount × Bool :=
  if acc.account_balance ≥ amnt then
    (⟨acc.account_name, acc.account_id, acc.account_balance - amnt⟩, false)
  else
    (acc, true)

inductive TransferResult where
  | success
  | insufficientFunds
deriving DecidableEq

/-- Observable outcome of one `transfer` call: the number of
"potential deadlock" warnings printed, and `none` when the call panics
(`unwrap` of a failed `try_lock`), otherwise the reported result together
with the final (sender, receiver) records. -/
structure TransferExec where
  warnings : Nat
  result : Option (TransferResult × BankAccount × BankAccount)
deriving DecidableEq

/-- Model of `BankAccount::transfer` (lines 48-76).  `senderAddr` and
`receiverAddr` are the storage addresses compared by
`Arc::as_ptr(sender) < Arc::as_ptr(receiver)` (line 50); `firstFree` and
`secondFree` say whether the `try_lock` on the canonically first and second
handle succeeds.  A failed `try_lock` prints a warning (lines 58, 65) and
the subsequent `.unwrap()` (lines 60, 67) panics, modelled as `none`. -/
def BankAccount.transfer (senderAddr receiverAddr : Nat)
    (sender receiver : BankAccount) (firstFree secondFree : Bool)
    (amount : Int) : TransferExec :=
  let t_first := if senderAddr < receiverAddr then sender else receiver
  let t_second := if senderAddr < receiverAddr then receiver else sender
  if firstFree = false then ⟨1, none⟩
  else if secondFree = false then ⟨1, none⟩
  else if t_first.account_balance ≥ amount then
    let acc_first := (t_first.withdraw amount).1
    let acc_second := t_second.deposit amount
    ⟨0, some (TransferResult.success,
      if senderAddr < receiverAddr then (acc_first, acc_second)
      else (acc_second, acc_first))⟩
  else
    ⟨0, some (TransferResult.insufficientFunds,
      if senderAddr < receiverAddr then (t_first, t_second)
      else (t_second, t_first))⟩

/-- `transfer` invoked in an otherwise idle process: the first `try_lock`
succeeds, and the second succeeds exactly when the two handles are distinct
storage (a self-transfer `try_lock`s the already-held `Mutex`). -/
def BankAccount.transferSeq (senderAddr receiverAddr : Nat)
    (sender receiver : BankAccount) (amount : Int) : TransferExec :=
  BankAccount.transfer senderAddr receiverAddr sender receiver true
    (senderAddr != receiverAddr) amount

inductive AccountOp where
  | dep (amnt : Int)
  | wd (amnt : Int)

/-- One single-account operation executed under the account's lock. -/
def applyOp (acc : BankAccount) : AccountOp → BankAccount
  | AccountOp.dep a => acc.deposit a
  | AccountOp.wd a => (acc.withdraw a).1

/-- A sequence of single-account operations executed one at a time. -/
def applyOps (acc : BankAccount) : List AccountOp → BankAccount
  | [] => acc
  | op :: rest => applyOps (applyOp acc op) rest

/-- Sum of all deposited amounts in a sequence of operations. -/
def depositTotal : List AccountOp → Int
  | [] => 0
  | AccountOp.dep a :: rest => a + depositTotal rest
  | AccountOp.wd _ :: rest => depositTotal rest

/-- Sum of the amounts of the successful withdrawals in a sequence of
operations started at balance `bal`: a withdrawal succeeds exactly when the
balance at the moment it executes is at least the requested amount. -/
def successfulWithdrawTotal (bal : Int) : List AccountOp → Int
  | [] => 0
  | AccountOp.dep a :: rest => successfulWithdrawTotal (bal + a) rest
  | AccountOp.wd a :: rest =>
    if bal ≥ a then a + successfulWithdrawTotal (bal - a) rest
    else successfulWithdrawTotal bal rest

/-- The stress scenario of the test suite: `n` repetitions of
`deposit(100)` followed by `withdraw(50)`. -/
def stressOps : Nat → List AccountOp
  | 0 => []
  | n + 1 => AccountOp.dep 100 :: AccountOp.wd 50 :: stressOps n

/-- Canonical lock-acquisition order of `transfer` (lines 50-54): the
address-lower handle is locked first. -/
def lockOrder (senderAddr receiverAddr : Nat) : Nat × Nat :=
  if senderAddr < receiverAddr then (senderAddr, receiverAddr)
  else (receiverAddr, senderAddr)

/-- Progress of one thread through its `transfer` call: it has acquired no
lock, the canonically first lock, both locks, finished (both released), or
panicked at the first or second `try_lock` (panicking unwinds and releases
whatever was held). -/
inductive TPhase where
  | start
  | gotFirst
  | gotBoth
  | done
  | panickedFirst
  | panickedSecond
deriving DecidableEq, Fintype

/-- A phase in which the thread's `transfer` call has ended (normally or by
panic). -/
def TPhase.terminal : TPhase → Bool
  | TPhase.done => true
  | TPhase.panickedFirst => true
  | TPhase.panickedSecond => true
  | _ => false

/-- Does a thread in this phase hold the canonically first lock? -/
def TPhase.holdsFirst : TPhase → Bool
  | TPhase.gotFirst => true
  | TPhase.gotBoth => true
  | _ => false

/-- Does a thread in this phase hold the canonically second lock? -/
def TPhase.holdsSecond : TPhase → Bool
  | TPhase.gotBoth => true
  | _ => false

/-- One atomic step of a non-terminal thread, given the other thread's
phase: a `try_lock` either succeeds or immediately ends the call (panic);
the mutation-and-release step always completes.  No step ever waits. -/
def stepPhase (self other : TPhase) : TPhase :=
  match self with
  | TPhase.start =>
    if other.holdsFirst then TPhase.panickedFirst else TPhase.gotFirst
  | TPhase.gotFirst =>
    if other.holdsSecond then TPhase.panickedSecond else TPhase.gotBoth
  | TPhase.gotBoth => TPhase.done
  | t => t

/-- Number of atomic steps a thread in this phase still has to take. -/
def TPhase.rank : TPhase → Nat
  | TPhase.start => 3
  | TPhase.gotFirst => 2
  | TPhase.gotBoth => 1
  | _ => 0

/-- One scheduled step of the two-thread system: `true` runs the first
thread, `false` the second; scheduling a terminal thread changes nothing. -/
def sysStep (s : TPhase × TPhase) (choice : Bool) : TPhase × TPhase :=
  if choice then
    (if s.1.terminal then s.1 else stepPhase s.1 s.2, s.2)
  else
    (s.1, if s.2.terminal then s.2 else stepPhase s.2 s.1)

/-- Run the two-thread system under a schedule. -/
def sysRun (s : TPhase × TPhase) : List Bool → TPhase × TPhase
  | [] => s
  | c :: rest => sysRun (sysStep s c) rest

/-- C1: the claim says a sufficiently funded transfer debits the sender and
credits the receiver regardless of which handle sorts first in storage
order; concretely sender=500000, receiver=2000, amount=3000 should end at
497000/5000.  The code instead checks and debits `acc_first`, the
address-lower account.  When the receiver's storage address is below the
sender's (here sender at address 1, receiver at address 0), the code
compares the receiver's balance 2000 with 3000, reports insufficient funds,
and leaves both balances unchanged — contradicting the claim (and the
repo's own `transfer_success_test`, which asserts the sender is debited). -/
theorem transfer_debits_address_lower_account_not_sender :
    BankAccount.transferSeq 1 0 ⟨"Sender1 Account", 2, 500000⟩
      ⟨"Receiver1 Account", 3, 2000⟩ 3000 =
    ⟨0, some (TransferResult.insufficientFunds,
      ⟨"Sender1 Account", 2, 500000⟩, ⟨"Receiver1 Account", 3, 2000⟩)⟩ := by
  decide

/-- C2: the claim says a transfer of more than the sender's balance reports
failure and changes nothing, regardless of storage order; concretely
sender=100, receiver=10000, amount=3000 should stay 100/10000.  When the
receiver's storage address is below the sender's, the code checks the
receiver's balance (10000 ≥ 3000), moves 3000 from the receiver to the
sender, and reports success: sender ends at 3100 and receiver at 7000 —
contradicting the claim (and the repo's own `transfer_fail_test`). -/
theorem transfer_insufficient_claim_fails_when_receiver_sorts_first :
    BankAccount.transferSeq 1 0 ⟨"Sender2 Account", 4, 100⟩
      ⟨"Receiver2 Account", 5, 10000⟩ 3000 =
    ⟨0, some (TransferResult.success,
      ⟨"Sender2 Account", 4, 3100⟩, ⟨"Receiver2 Account", 5, 7000⟩)⟩ := by
  decide

/-- C3: the claim says a self-transfer (both handles the same storage) is
detected via handle identity and treated as a no-op success.  The code has
no identity check: both canonical handles are the same `Mutex`, the second
`try_lock` fails because the calling thread already holds it, a deadlock
warning is printed, and the unconditional `.unwrap()` panics.  Modelled
here: one warning and a panic (`result = none`), not a no-op success. -/
theorem self_transfer_panics_instead_of_noop :
    BankAccount.transferSeq 7 7 ⟨"Self Account", 0, 1000⟩
      ⟨"Self Account", 0, 1000⟩ 100 = ⟨1, none⟩ := by
  decide

/-- C4: the claim says a failed non-blocking lock acquisition is reported
as a warning and not escalated to a fatal error, the call still reaching a
correctness-preserving final state.  In the code, whenever `try_lock` on
either the first or the second canonical handle fails, the warning is
printed and the very next statement `.unwrap()`s the failed result, which
panics: for every choice of addresses, accounts and amount, the call ends
with one warning and a panic (`result = none`), never a final state. -/
theorem failed_try_lock_warns_then_panics :
    ∀ (sa ra : Nat) (sender receiver : BankAccount) (sf : Bool) (amount : Int),
      BankAccount.transfer sa ra sender receiver false sf amount = ⟨1, none⟩ ∧
      BankAccount.transfer sa ra sender receiver true false amount =
        ⟨1, none⟩ := by
  intro sa ra sender receiver sf amount
  exact ⟨rfl, rfl⟩

/-- C6: `withdraw(amount)` subtracts `amount` from the balance when the
balance is at least `amount` (printing no message), and otherwise leaves
the account record exactly unchanged and prints the insufficient-funds
message; in particular every request strictly above the current balance
leaves the balance as it was. -/
theorem withdraw_subtracts_or_reports_insufficient :
    ∀ (acc : BankAccount) (amnt : Int),
      (acc.account_balance ≥ amnt →
        acc.withdraw amnt =
          (⟨acc.account_name, acc.account_id, acc.account_balance - amnt⟩,
            false)) ∧
      (acc.account_balance < amnt → acc.withdraw amnt = (acc, true)) := by
  intro acc amnt
  constructor
  · intro h
    unfold BankAccount.withdraw
    rw [if_pos h]
  · intro h
    unfold BankAccount.withdraw
    rw [if_neg (not_le.mpr h)]

/-- Witness for C6 at concrete inputs: withdrawing 400 from balance 1000
succeeds and leaves 600; withdrawing 800 from balance 500 is refused and
leaves the record unchanged with the message printed. -/
theorem withdraw_subtracts_or_reports_insufficient_witness :
    BankAccount.withdraw ⟨"Test Account", 0, 1000⟩ 400 =
      (⟨"Test Account", 0, 1000 - 400⟩, false) ∧
    BankAccount.withdraw ⟨"Test Account", 1, 500⟩ 800 =
      (⟨"Test Account", 1, 500⟩, true) :=
  ⟨(withdraw_subtracts_or_reports_insufficient ⟨"Test Account", 0, 1000⟩
      400).1 (by decide),
   (withdraw_subtracts_or_reports_insufficient ⟨"Test Account", 1, 500⟩
      800).2 (by decide)⟩

/-- Helper: full case analysis of a completed (non-panicking) `transfer`:
the balances move as dictated by the canonical (address) order and the
balance check on the canonically first account. -/
theorem transfer_result_cases (sa ra : Nat) (sender receiver : BankAccount)
    (ff sf : Bool) (amount : Int) (res : TransferResult)
    (s' r' : BankAccount)
    (h : (BankAccount.transfer sa ra sender receiver ff sf amount).result =
      some (res, s', r')) :
    (res = TransferResult.success ∧
      ((sa < ra ∧ sender.account_balance ≥ amount ∧
        s' = ⟨sender.account_name, sender.account_id,
          sender.account_balance - amount⟩ ∧
        r' = ⟨receiver.account_name, receiver.account_id,
          receiver.account_balance + amount⟩) ∨
       (¬ sa < ra ∧ receiver.account_balance ≥ amount ∧
        s' = ⟨sender.account_name, sender.account_id,
          sender.account_balance + amount⟩ ∧
        r' = ⟨receiver.account_name, receiver.account_id,
          receiver.account_balance - amount⟩))) ∨
    (res = TransferResult.insufficientFunds ∧ s' = sender ∧ r' = receiver) := by
  cases ff with
  | false => simp [BankAccount.transfer] at h
  | true =>
    cases sf with
    | false => simp [BankAccount.transfer] at h
    | true =>
      by_cases ho : sa < ra
      · by_cases hb : sender.account_balance ≥ amount
        · left
          simp [BankAccount.transfer, ho, hb, BankAccount.withdraw,
            BankAccount.deposit] at h
          obtain ⟨h1, h2, h3⟩ := h
          exact ⟨h1.symm, Or.inl ⟨ho, hb, h2.symm, h3.symm⟩⟩
        · right
          simp [BankAccount.transfer, ho, hb] at h
          obtain ⟨h1, h2, h3⟩ := h
          exact ⟨h1.symm, h2.symm, h3.symm⟩
      · by_cases hb : receiver.account_balance ≥ amount
        · left
          simp [BankAccount.transfer, ho, hb, BankAccount.withdraw,
            BankAccount.deposit] at h
          obtain ⟨h1, h2, h3⟩ := h
          exact ⟨h1.symm, Or.inr ⟨ho, hb, h2.symm, h3.symm⟩⟩
        · right
          simp [BankAccount.transfer, ho, hb] at h
          obtain ⟨h1, h2, h3⟩ := h
          exact ⟨h1.symm, h2.symm, h3.symm⟩

/-- C5 (amended): every completed (non-panicking) `transfer`, whether it
reports success or insufficient funds, preserves the sum of the two
accounts' balances — hence any sequence of completed transfers over a fixed
set of accounts preserves the total — and, provided the amount and both
starting balances are nonnegative, neither resulting balance is negative. -/
theorem transfer_conserves_sum :
    ∀ (sa ra : Nat) (sender receiver : BankAccount) (ff sf : Bool)
      (amount : Int) (res : TransferResult) (s' r' : BankAccount),
      (BankAccount.transfer sa ra sender receiver ff sf amount).result =
        some (res, s', r') →
      s'.account_balance + r'.account_balance =
        sender.account_balance + receiver.account_balance ∧
      (0 ≤ amount → 0 ≤ sender.account_balance →
        0 ≤ receiver.account_balance →
        0 ≤ s'.account_balance ∧ 0 ≤ r'.account_balance) := by
  intro sa ra sender receiver ff sf amount res s' r' h
  rcases transfer_result_cases sa ra sender receiver ff sf amount res s' r' h
    with ⟨_, ⟨_, hb, rfl, rfl⟩ | ⟨_, hb, rfl, rfl⟩⟩ | ⟨_, rfl, rfl⟩
  · exact ⟨by simp, fun h1 h2 h3 => ⟨by simp; omega, by simp; omega⟩⟩
  · exact ⟨by simp, fun h1 h2 h3 => ⟨by simp; omega, by simp; omega⟩⟩
  · exact ⟨rfl, fun h1 h2 h3 => ⟨h2, h3⟩⟩

/-- Witness for C5 at concrete inputs: transfer of 30 from balance 100 to
balance 5 completes with balances 70 and 35, whose sum equals 100 + 5, both
nonnegative. -/
theorem transfer_conserves_sum_witness :
    (BankAccount.account_balance ⟨"A", 0, 70⟩ +
        BankAccount.account_balance ⟨"B", 1, 35⟩ =
      BankAccount.account_balance ⟨"A", 0, 100⟩ +
        BankAccount.account_balance ⟨"B", 1, 5⟩) ∧
    (0 ≤ BankAccount.account_balance ⟨"A", 0, 70⟩ ∧
      0 ≤ BankAccount.account_balance ⟨"B", 1, 35⟩) := by
  have h := transfer_conserves_sum 0 1 ⟨"A", 0, 100⟩ ⟨"B", 1, 5⟩ true true 30
    TransferResult.success ⟨"A", 0, 70⟩ ⟨"B", 1, 35⟩ (by decide)
  exact ⟨h.1, h.2 (by decide) (by decide) (by decide)⟩

/-- C5 counterexample: the claim as stated says no account balance is ever
driven below zero by a transfer.  Amounts are not sign-checked: a completed
transfer of −100 from balance 500 (address-lower) to balance 50 reports
success and leaves the receiver at −50 < 0. -/
theorem transfer_drives_balance_below_zero :
    BankAccount.transferSeq 0 1 ⟨"A", 0, 500⟩ ⟨"B", 1, 50⟩ (-100) =
      ⟨0, some (TransferResult.success, ⟨"A", 0, 600⟩, ⟨"B", 1, -50⟩)⟩ ∧
    BankAccount.account_balance ⟨"B", 1, -50⟩ < 0 := by
  decide

/-- C10: no operation validates the sign of `amount`.  For every negative
amount: `withdraw` succeeds whenever the balance is at least the (negative)
amount and *increases* the balance by `-amount` without printing a message;
`deposit` *decreases* the balance by `-amount`; and a transfer between two
distinct accounts whose canonically first account's balance passes the
check is reported as a success moving `-amount` in the opposite direction —
the canonically first account's balance increases by `-amount` and the
canonically second account's balance decreases by `-amount`. -/
theorem negative_amounts_not_validated :
    ∀ (acc : BankAccount) (amnt : Int), amnt < 0 →
      ((acc.account_balance ≥ amnt →
          (acc.withdraw amnt).1.account_balance =
            acc.account_balance + -amnt ∧
          (acc.withdraw amnt).2 = false) ∧
        (acc.deposit amnt).account_balance = acc.account_balance - -amnt) ∧
      (∀ (sa ra : Nat) (sender receiver : BankAccount), sa ≠ ra →
        (if sa < ra then sender else receiver).account_balance ≥ amnt →
        BankAccount.transferSeq sa ra sender receiver amnt =
          ⟨0, some (TransferResult.success,
            ⟨sender.account_name, sender.account_id,
              sender.account_balance + (if sa < ra then -amnt else amnt)⟩,
            ⟨receiver.account_name, receiver.account_id,
              receiver.account_balance +
                (if sa < ra then amnt else -amnt)⟩)⟩) := by
  intro acc amnt hneg
  constructor
  · refine ⟨fun hge => ?_, ?_⟩
    · have h : acc.withdraw amnt =
          (⟨acc.account_name, acc.account_id, acc.account_balance - amnt⟩,
            false) := by
        unfold BankAccount.withdraw
        rw [if_pos hge]
      rw [h]
      exact ⟨by simp; omega, rfl⟩
    · show acc.account_balance + amnt = acc.account_balance - -amnt
      omega
  · intro sa ra sender receiver hne hgfirst
    by_cases ho : sa < ra
    · rw [if_pos ho] at hgfirst
      simp [BankAccount.transferSeq, BankAccount.transfer, hne, ho, hgfirst,
        BankAccount.withdraw, BankAccount.deposit, sub_eq_add_neg]
    · rw [if_neg ho] at hgfirst
      simp [BankAccount.transferSeq, BankAccount.transfer, hne, ho, hgfirst,
        BankAccount.withdraw, BankAccount.deposit, sub_eq_add_neg]

/-- Witness for C10 at concrete inputs: with amount −100, withdrawing from
balance 50 yields 150 with no message, depositing onto balance 50 yields
−50, and a transfer between balances 500 (address-lower) and 50 reports
success moving 100 from the second account to the first. -/
theorem negative_amounts_not_validated_witness :
    ((-100 : Int) < 0) ∧
    (BankAccount.withdraw ⟨"W", 0, 50⟩ (-100)).1.account_balance =
      50 + -(-100) ∧
    (BankAccount.withdraw ⟨"W", 0, 50⟩ (-100)).2 = false ∧
    (BankAccount.deposit ⟨"W", 0, 50⟩ (-100)).account_balance =
      50 - -(-100) ∧
    BankAccount.transferSeq 0 1 ⟨"S", 1, 500⟩ ⟨"R", 2, 50⟩ (-100) =
      ⟨0, some (TransferResult.success,
        ⟨"S", 1, 500 + (if (0 : Nat) < 1 then -(-100 : Int) else (-100))⟩,
        ⟨"R", 2, 50 + (if (0 : Nat) < 1 then (-100 : Int) else -(-100))⟩)⟩ := by
  have h := negative_amounts_not_validated ⟨"W", 0, 50⟩ (-100) (by decide)
  have h1 := h.1.1 (by decide)
  have h2 := h.2 0 1 ⟨"S", 1, 500⟩ ⟨"R", 2, 50⟩ (by decide) (by decide)
  exact ⟨by decide, h1.1, h1.2, h.1.2, h2⟩

/-- Helper: the ledger identity for a single account.  For every sequence
of deposit/withdraw operations executed one at a time, the final balance is
the initial balance plus the sum of the deposits minus the sum of the
successful withdrawals (those whose amount was at most the balance at the
moment they executed). -/
theorem applyOps_ledger :
    ∀ (ops : List AccountOp) (acc : BankAccount),
      (applyOps acc ops).account_balance =
        acc.account_balance + depositTotal ops -
          successfulWithdrawTotal acc.account_balance ops := by
  intro ops
  induction ops with
  | nil =>
    intro acc
    simp [applyOps, depositTotal, successfulWithdrawTotal]
  | cons op rest ih =>
    intro acc
    cases op with
    | dep a =>
      have h := ih (acc.deposit a)
      show (applyOps (acc.deposit a) rest).account_balance = _
      rw [h]
      show acc.account_balance + a + depositTotal rest -
          successfulWithdrawTotal (acc.account_balance + a) rest =
        acc.account_balance + (a + depositTotal rest) -
          successfulWithdrawTotal (acc.account_balance + a) rest
      ring
    | wd a =>
      by_cases hb : acc.account_balance ≥ a
      · have hw : applyOp acc (AccountOp.wd a) =
            ⟨acc.account_name, acc.account_id, acc.account_balance - a⟩ := by
          show (acc.withdraw a).1 = _
          unfold BankAccount.withdraw
          rw [if_pos hb]
        have hs : successfulWithdrawTotal acc.account_balance
              (AccountOp.wd a :: rest) =
            a + successfulWithdrawTotal (acc.account_balance - a) rest := by
          show (if acc.account_balance ≥ a then
              a + successfulWithdrawTotal (acc.account_balance - a) rest
            else successfulWithdrawTotal acc.account_balance rest) = _
          rw [if_pos hb]
        have hd : depositTotal (AccountOp.wd a :: rest) =
            depositTotal rest := rfl
        show (applyOps (applyOp acc (AccountOp.wd a)) rest).account_balance = _
        rw [hw, ih ⟨acc.account_name, acc.account_id,
          acc.account_balance - a⟩, hs, hd]
        show acc.account_balance - a + depositTotal rest -
            successfulWithdrawTotal (acc.account_balance - a) rest = _
        ring
      · have hw : applyOp acc (AccountOp.wd a) = acc := by
          show (acc.withdraw a).1 = _
          unfold BankAccount.withdraw
          rw [if_neg hb]
        have hs : successfulWithdrawTotal acc.account_balance
              (AccountOp.wd a :: rest) =
            successfulWithdrawTotal acc.account_balance rest := by
          show (if acc.account_balance ≥ a then
              a + successfulWithdrawTotal (acc.account_balance - a) rest
            else successfulWithdrawTotal acc.account_balance rest) = _
          rw [if_neg hb]
        have hd : depositTotal (AccountOp.wd a :: rest) =
            depositTotal rest := rfl
        show (applyOps (applyOp acc (AccountOp.wd a)) rest).account_balance = _
        rw [hw, ih acc, hs, hd]

/-- Helper: starting from a nonnegative balance `B`, `n` repetitions of
`deposit(100); withdraw(50)` end at exactly `B + 50·n` (every withdrawal
succeeds along the way). -/
theorem applyOps_stress :
    ∀ (n : Nat) (name : String) (id : Nat) (B : Int), 0 ≤ B →
      (applyOps ⟨name, id, B⟩ (stressOps n)).account_balance =
        B + 50 * n := by
  intro n
  induction n with
  | zero =>
    intro name id B hB
    simp [stressOps, applyOps]
  | succ m ih =>
    intro name id B hB
    have e1 : applyOp ⟨name, id, B⟩ (AccountOp.dep 100) =
        ⟨name, id, B + 100⟩ := rfl
    have e2 : applyOp ⟨name, id, B + 100⟩ (AccountOp.wd 50) =
        ⟨name, id, B + 100 - 50⟩ := by
      show (BankAccount.withdraw ⟨name, id, B + 100⟩ 50).1 = _
      unfold BankAccount.withdraw
      rw [if_pos (by simp; omega)]
    show (applyOps (applyOp (applyOp ⟨name, id, B⟩ (AccountOp.dep 100))
      (AccountOp.wd 50)) (stressOps m)).account_balance = _
    rw [e1, e2, ih name id (B + 100 - 50) (by omega)]
    push_cast
    ring

/-- C7 (amended): for every account and every sequence of deposit/withdraw
operations executed one at a time, the final balance equals the initial
balance plus the sum of the deposits minus the sum of the successful
withdrawals (those whose amount was at most the balance when they
executed); in particular, provided the initial balance `B` is nonnegative,
`n` repetitions of `deposit(100); withdraw(50)` end at `B + 50·n`. -/
theorem account_ledger_and_stress :
    (∀ (ops : List AccountOp) (acc : BankAccount),
      (applyOps acc ops).account_balance =
        acc.account_balance + depositTotal ops -
          successfulWithdrawTotal acc.account_balance ops) ∧
    (∀ (n : Nat) (name : String) (id : Nat) (B : Int), 0 ≤ B →
      (applyOps ⟨name, id, B⟩ (stressOps n)).account_balance =
        B + 50 * n) :=
  ⟨applyOps_ledger, applyOps_stress⟩

/-- Witness for C7 at concrete inputs: starting from balance 10, two
repetitions of `deposit(100); withdraw(50)` end at 10 + 50·2. -/
theorem account_ledger_and_stress_witness :
    (0 : Int) ≤ 10 ∧
    (applyOps ⟨"Account Holder", 0, 10⟩ (stressOps 2)).account_balance =
      10 + 50 * (2 : Nat) :=
  ⟨by decide, account_ledger_and_stress.2 2 "Account Holder" 0 10 (by decide)⟩

/-- C7 counterexample: the claim as stated quantifies over every initial
balance `B`, but for a sufficiently negative balance the withdrawals fail:
from `B = -1000`, one repetition of `deposit(100); withdraw(50)` ends at
−900 (the withdrawal is refused), not at `B + 50·1 = -950`. -/
theorem stress_identity_fails_for_negative_balance :
    (applyOps ⟨"Account Holder", 0, -1000⟩ (stressOps 1)).account_balance =
      -900 ∧
    ¬ (applyOps ⟨"Account Holder", 0, -1000⟩
        (stressOps 1)).account_balance = -1000 + 50 * (1 : Nat) := by
  decide

/-- Helper: a chain of `m` allocations from counter `c` hands out exactly
the ids `c, c+1, …, c+m-1` and leaves the counter at `c + m`. -/
theorem allocRun_eq :
    ∀ (m c : Nat), allocRun c m = (List.range' c m, c + m) := by
  intro m
  induction m with
  | zero =>
    intro c
    simp [allocRun]
  | succ k ih =>
    intro c
    show (c :: (allocRun (c + 1) k).1, (allocRun (c + 1) k).2) = _
    rw [ih (c + 1), List.range'_succ]
    simp
    omega

/-- C8: the identity allocator never repeats.  A chain of `m` constructions
starting from the initial counter 0 hands out the pairwise distinct ids
`0, …, m-1` and leaves the counter at `m` (one increment per
construction); each single allocation returns the current counter value,
strictly increases the counter, and `BankAccount::new` stamps exactly the
allocated id on the record.  Since `fetch_add` is one indivisible
operation, every concurrent interleaving of `m` allocations is one such
chain, so the `m` produced ids are pairwise distinct. -/
theorem allocator_ids_pairwise_distinct :
    ∀ (m : Nat),
      ((allocRun 0 m).1).Nodup ∧
      (allocRun 0 m).1 = List.range' 0 m ∧
      (allocRun 0 m).2 = m ∧
      (∀ c : Nat, (fetch_add c).1 = c ∧ (fetch_add c).2 = c + 1 ∧
        c < (fetch_add c).2 ∧
        (∀ (name : String) (b : Int),
          (BankAccount.new name b c).1.account_id = c ∧
          (BankAccount.new name b c).2 = c + 1)) := by
  intro m
  have h := allocRun_eq m 0
  refine ⟨?_, ?_, ?_, ?_⟩
  · rw [h]
    exact List.nodup_range' 0 m
  · rw [h]
  · rw [h]
    simp
  · intro c
    exact ⟨rfl, rfl, Nat.lt_succ_self c, fun name b => ⟨rfl, rfl⟩⟩

/-- Helper: one scheduled atomic step of a thread (a no-op once terminal)
strictly reduces the number of steps it still has to take, down to zero. -/
theorem stepPhase_rank_le :
    ∀ p q : TPhase,
      (if p.terminal then p else stepPhase p q).rank ≤ p.rank - 1 := by
  decide

/-- Helper: under any schedule, after the first thread has been scheduled
`k` times its remaining step count has dropped by at least `k`. -/
theorem sysRun_rank_fst :
    ∀ (sched : List Bool) (p q : TPhase),
      ((sysRun (p, q) sched).1).rank ≤ p.rank - sched.count true := by
  intro sched
  induction sched with
  | nil =>
    intro p q
    simp [sysRun]
  | cons c rest ih =>
    intro p q
    cases c with
    | true =>
      have h1 := stepPhase_rank_le p q
      have h2 := ih (if p.terminal then p else stepPhase p q) q
      have hg : sysRun (p, q) (true :: rest) =
          sysRun ((if p.terminal then p else stepPhase p q), q) rest := rfl
      rw [hg]
      have hc : (true :: rest).count true = rest.count true + 1 := by
        simp
      rw [hc]
      omega
    | false =>
      have h2 := ih p (if q.terminal then q else stepPhase q p)
      have hg : sysRun (p, q) (false :: rest) =
          sysRun (p, (if q.terminal then q else stepPhase q p)) rest := rfl
      rw [hg]
      have hc : (false :: rest).count true = rest.count true := by
        simp
      rw [hc]
      omega

/-- Helper: symmetric bound for the second thread. -/
theorem sysRun_rank_snd :
    ∀ (sched : List Bool) (p q : TPhase),
      ((sysRun (p, q) sched).2).rank ≤ q.rank - sched.count false := by
  intro sched
  induction sched with
  | nil =>
    intro p q
    simp [sysRun]
  | cons c rest ih =>
    intro p q
    cases c with
    | true =>
      have h2 := ih (if p.terminal then p else stepPhase p q) q
      have hg : sysRun (p, q) (true :: rest) =
          sysRun ((if p.terminal then p else stepPhase p q), q) rest := rfl
      rw [hg]
      have hc : (true :: rest).count false = rest.count false := by
        simp
      rw [hc]
      omega
    | false =>
      have h1 := stepPhase_rank_le q p
      have h2 := ih p (if q.terminal then q else stepPhase q p)
      have hg : sysRun (p, q) (false :: rest) =
          sysRun (p, (if q.terminal then q else stepPhase q p)) rest := rfl
      rw [hg]
      have hc : (false :: rest).count false = rest.count false + 1 := by
        simp
      rw [hc]
      omega

/-- Helper: a thread with no remaining steps has ended its call. -/
theorem rank_zero_terminal :
    ∀ p : TPhase, p.rank = 0 → p.terminal = true := by
  decide

/-- C9: the two-lock acquisition of `transfer` is canonicalized by storage
address, so two calls naming the same pair of accounts in reversed argument
order acquire the locks in the identical global order (first conjunct); and
in the two-thread model of such a pair of concurrent calls — where each
acquisition is an atomic `try_lock` that never waits — every schedule that
runs each thread at least its three atomic steps leaves both calls ended
(second conjunct): no cyclic wait can form and neither call blocks
indefinitely, both complete within a bounded number of steps (a contended
`try_lock` ends the losing call immediately — by the panic that C4
documents — rather than ever waiting). -/
theorem reversed_transfers_same_lock_order_no_deadlock :
    (∀ a b : Nat, lockOrder a b = lockOrder b a) ∧
    (∀ sched : List Bool, 3 ≤ sched.count true → 3 ≤ sched.count false →
      ((sysRun (TPhase.start, TPhase.start) sched).1).terminal = true ∧
      ((sysRun (TPhase.start, TPhase.start) sched).2).terminal = true) := by
  constructor
  · intro a b
    unfold lockOrder
    rcases Nat.lt_trichotomy a b with h | h | h
    · rw [if_pos h, if_neg (Nat.lt_asymm h)]
    · rw [h]
    · rw [if_neg (Nat.lt_asymm h), if_pos h]
  · intro sched h1 h2
    have ha := sysRun_rank_fst sched TPhase.start TPhase.start
    have hb := sysRun_rank_snd sched TPhase.start TPhase.start
    have hr : TPhase.rank TPhase.start = 3 := rfl
    rw [hr] at ha hb
    exact ⟨rank_zero_terminal _ (by omega), rank_zero_terminal _ (by omega)⟩

/-- Witness for C9: a schedule giving each thread three steps (the first
thread's call runs to completion and releases both locks, after which the
second thread's call runs to completion) leaves both calls ended. -/
theorem reversed_transfers_same_lock_order_no_deadlock_witness :
    3 ≤ ([true, true, true, false, false, false] : List Bool).count true ∧
    3 ≤ ([true, true, true, false, false, false] : List Bool).count false ∧
    ((sysRun (TPhase.start, TPhase.start)
      [true, true, true, false, false, false]).1).terminal = true ∧
    ((sysRun (TPhase.start, TPhase.start)
      [true, true, true, false, false, false]).2).terminal = true := by
  have h := reversed_transfers_same_lock_order_no_deadlock.2
    [true, true, true, false, false, false] (by decide) (by decide)
  exact ⟨by decide, by decide, h.1, h.2⟩
